/-
Verification of `main.py` (kermit-bot): a shallow embedding in Lean 4 of the
bootstrap and command-dispatch scaffolding of the bot, together with theorems about
the help-command generator, cog loading and retry, the slash-command error
handler, credential checking, presence rotation, and the `_loaded_cogs`
invariant.

Conventions of the embedding:
* Python strings are Lean `String`s; Python lists are Lean `List`s.
* The Python set `_loaded_cogs` is modelled as a duplicate-free `List String`
  (`setAdd` inserts only when absent, matching `set.add`).
* `await self.load_extension(ext)` is modelled by an oracle
  `load : String → Option String`: `none` means the load succeeded, `some msg`
  means it raised an exception whose `str()` is `msg`.
* Discord objects (commands, embeds, interactions) are modelled structurally
  with exactly the attributes `main.py` reads or writes.
-/
import Mathlib

namespace Kermit

/-! ## Python string helpers -/

/-- Python `str.lower()` (ASCII behaviour, which agrees with Python on the
ASCII characters in play; characters without case, such as Hangul, are
unchanged in both). -/
def pyLower (s : String) : String :=
  String.mk (s.data.map Char.toLower)

/-- Python `str.endswith(suffix)`. -/
def pyEndsWith (s suffix : String) : Bool :=
  suffix.data.isSuffixOf s.data

/-- Python `str.capitalize()`: first character upper-cased, the rest
lower-cased (ASCII behaviour, which agrees with Python on the ASCII command
names used here). -/
def pyCapitalize (s : String) : String :=
  match s.data with
  | [] => ""
  | c :: cs => String.mk (c.toUpper :: cs.map Char.toLower)

/-! ## Data model of registered application commands

`main.py` walks `bot.tree.get_commands()`; each entry is either an
`app_commands.Group` (with `.commands`, each subcommand having `.name`,
`.description` and `.parameters` with `.name`/`.required`) or a plain command
(with `.name` and `.description`). -/

/-- A parameter of a slash subcommand: `param.name` and `param.required`. -/
structure Parameter where
  name : String
  required : Bool
deriving DecidableEq

/-- A subcommand of an `app_commands.Group`. -/
structure Subcommand where
  name : String
  description : String
  parameters : List Parameter
deriving DecidableEq

/-- A top-level command registered on `bot.tree`: either a group or a plain
("standalone") command. -/
inductive AppCommand where
  | group (name : String) (description : String) (commands : List Subcommand)
  | simple (name : String) (description : String)
deriving DecidableEq

/-- The attribute `command.name`. -/
def AppCommand.name : AppCommand → String
  | .group n _ _ => n
  | .simple n _ => n

/-- The attribute `command.description`. -/
def AppCommand.description : AppCommand → String
  | .group _ d _ => d
  | .simple _ d => d

/-- The test `isinstance(command, app_commands.Group)`. -/
def AppCommand.isGroup : AppCommand → Bool
  | .group _ _ _ => true
  | .simple _ _ => false

/-- The lookup `bot.tree.get_command(name)`: the registered command with that name. -/
def getCommand (tree : List AppCommand) (n : String) : Option AppCommand :=
  tree.find? (fun c => c.name = n)

/-! ## Embeds and the sends performed by `help_command` -/

/-- One field of a Discord embed, as produced by `embed.add_field`. -/
structure EmbedField where
  name : String
  value : String
  inline : Bool
deriving DecidableEq

/-- The parts of a `discord.Embed` that `help_command` sets. -/
structure Embed where
  title : String
  descr : String
  fields : List EmbedField
  footer : Option String
deriving DecidableEq

/-- The method `embed.add_field`, appending one field. -/
def Embed.addField (e : Embed) (f : EmbedField) : Embed :=
  { e with fields := e.fields ++ [f] }

/-- The observable interaction calls `help_command` makes, in order. -/
inductive Send where
  | defer
  | followupEmbed (e : Embed)
  | followupMsg (msg : String) (ephemeral : Bool)
deriving DecidableEq

/-! ## `help_command` (main.py lines 171-248) -/

/-- The field added for each registered group in the no-category overview. -/
def groupField (c : AppCommand) : EmbedField :=
  { name := "📎 " ++ pyCapitalize c.name
    value := "`/도움말 " ++ c.name ++ "`으로 자세히 보기"
    inline := false }

/-- The loop `for command in bot.tree.get_commands(): if isinstance(command,
app_commands.Group): embed.add_field(...)`. -/
def addGroupFields (tree : List AppCommand) (e : Embed) : Embed :=
  tree.foldl (fun e c => if c.isGroup then e.addField (groupField c) else e) e

/-- One line of the special-commands field: `f"/{cmd.name} - {cmd.description}"`. -/
def standaloneLine (c : AppCommand) : String :=
  "/" ++ c.name ++ " - " ++ c.description

/-- The embed built by the no-category branch of `help_command`. -/
def overviewEmbed (tree : List AppCommand) : Embed :=
  let base : Embed :=
    { title := "🔍 도움말: 기능 및 명령어 목록"
      descr := "사용 가능한 모든 기능 그룹 및 특수 명령어입니다.\n각 기능의 자세한 설명을 보려면 `/도움말 [카테고리]`를 입력하세요."
      fields := []
      footer := none }
  let withGroups := addGroupFields tree base
  let standalone := tree.filter (fun c => !c.isGroup)
  if standalone.isEmpty then withGroups
  else
    withGroups.addField
      { name := "--특수 명령어--"
        value := String.intercalate "\n" (standalone.map standaloneLine)
        inline := false }

/-- The rendering of one parameter: its name in square brackets if required, in parentheses otherwise. -/
def paramDesc (p : Parameter) : String :=
  if p.required then "[" ++ p.name ++ "]" else "(" ++ p.name ++ ")"

/-- The usage string: a slash, the group name, a space, the subcommand name,
a space, and the space-joined rendered parameters.  Note the format string
always inserts one space after the subcommand name, even when there are no
parameters. -/
def subUsage (groupName : String) (s : Subcommand) : String :=
  "/" ++ groupName ++ " " ++ s.name ++ " "
    ++ String.intercalate " " (s.parameters.map paramDesc)

/-- The field added for one subcommand of the requested group. -/
def subField (groupName : String) (s : Subcommand) : EmbedField :=
  { name := subUsage groupName s
    value :=
      "💡 " ++ s.description
        ++ (if s.parameters.isEmpty then ""
            else "\n```사용법: " ++ subUsage groupName s ++ "```")
    inline := false }

/-- The embed built by the category branch of `help_command`; `category` is the
(lower-cased) user input, `groupName`/`subs` come from the group found in the
tree. -/
def categoryEmbed (category : String) (groupName : String)
    (subs : List Subcommand) : Embed :=
  let base : Embed :=
    { title := "📚 " ++ pyCapitalize category ++ " 카테고리 도움말"
      descr := pyCapitalize category ++ " 카테고리에서 사용할 수 있는 모든 명령어입니다."
      fields := []
      footer := none }
  let withSubs := subs.foldl (fun e s => e.addField (subField groupName s)) base
  { withSubs with footer := some "[] = 필수 항목, () = 선택 항목" }

/-- The not-found reply of the category branch. -/
def categoryNotFoundMsg (category : String) : String :=
  "❌ \x27" ++ category ++ "\x27 카테고리를 찾을 수 없습니다.\n사용 가능한 카테고리 목록을 보려면 `/도움말`을 입력하세요."

/-- The slash command `help_command(interaction, category)`: defers, then either sends the
overview embed (`if not category`, i.e. `None` or the empty string), or looks
up `category.lower()` in the tree and sends the per-group embed, or sends the
ephemeral not-found message. -/
def help_command (tree : List AppCommand) (category : Option String) :
    List Send :=
  Send.defer ::
    match category with
    | none => [Send.followupEmbed (overviewEmbed tree)]
    | some cat =>
      if cat = "" then [Send.followupEmbed (overviewEmbed tree)]
      else
        let c := pyLower cat
        match getCommand tree c with
        | some (AppCommand.group n _ subs) =>
            [Send.followupEmbed (categoryEmbed c n subs)]
        | _ => [Send.followupMsg (categoryNotFoundMsg c) true]

/-! ## Cog loading: `setup_hook` (lines 60-86), retry, and `close` (105-121) -/

/-- Python `set.add`: insert unless already present (set semantics on a list). -/
def setAdd (l : List String) (x : String) : List String :=
  if x ∈ l then l else l ++ [x]

/-- The filter `filename.endswith(".py") and filename != "__init__.py"`. -/
def cogEligible (filename : String) : Bool :=
  pyEndsWith filename ".py" && filename ≠ "__init__.py"

/-- The extension name: the string `cogs.` followed by the filename without its last three characters. -/
def extensionOf (filename : String) : String :=
  "cogs." ++ filename.dropRight 3

/-- The state threaded through the `setup_hook` loop: the `_loaded_cogs` set,
the `failed_cogs` list of `(extension, str(e))` pairs, and (for specification
purposes) the list of extensions `load_extension` was called on, in order. -/
structure SetupState where
  loaded : List String
  failed : List (String × String)
  attempts : List String
deriving DecidableEq

/-- One iteration of the `for filename in os.listdir("./cogs")` loop. -/
def setupStep (load : String → Option String) (st : SetupState)
    (filename : String) : SetupState :=
  if cogEligible filename then
    let extension := extensionOf filename
    if extension ∈ st.loaded then st
    else
      match load extension with
      | none =>
          { st with
            loaded := st.loaded ++ [extension]
            attempts := st.attempts ++ [extension] }
      | some e =>
          { st with
            failed := st.failed ++ [(extension, e)]
            attempts := st.attempts ++ [extension] }
  else st

/-- The hook `setup_hook`: fold the loop over the directory listing, starting from the
current `_loaded_cogs` and an empty `failed_cogs`. -/
def setup_hook (files : List String) (load : String → Option String)
    (loaded0 : List String) : SetupState :=
  files.foldl (setupStep load) ⟨loaded0, [], []⟩

/-- Events of the scheduled `retry_failed_cogs` task, in order. -/
inductive RetryEvent where
  | sleep (seconds : Nat)
  | attempt (extension : String) (success : Bool)
deriving DecidableEq

/-- The task `retry_failed_cogs`: sleep 5 seconds, then walk `failed_cogs` in order,
calling `load_extension` once per entry; a success is added to `_loaded_cogs`,
a failure is only logged.  Returns the event trace and the resulting
`_loaded_cogs`. -/
def retry_failed_cogs (failed : List (String × String))
    (load : String → Option String) (loaded : List String) :
    List RetryEvent × List String :=
  failed.foldl
    (fun acc p =>
      match load p.1 with
      | none => (acc.1 ++ [RetryEvent.attempt p.1 true], setAdd acc.2 p.1)
      | some _ => (acc.1 ++ [RetryEvent.attempt p.1 false], acc.2))
    ([RetryEvent.sleep 5], loaded)

/-- The cog-cleanup part of `MyBot.close`: it iterates
`list(self._loaded_cogs)` and calls `unload_extension` on each entry (failures
are logged), but never mutates `_loaded_cogs` itself.  Returns the list of
extensions unloaded and the resulting `_loaded_cogs`. -/
def close_cleanup (loaded : List String) : List String × List String :=
  (loaded, loaded)

/-! ## Slash-command error handler: `on_app_command_error` (lines 132-161)

The error taxonomy mirrors the `isinstance` checks the handler performs
against the discord.py class hierarchy.  In `discord/app_commands/errors.py`
the class `CommandOnCooldown` is declared as a subclass of `CheckFailure`, so
`isinstance(error, CheckFailure)` is also true for cooldown errors; the
constructors below represent the dynamic type of the error, and the
`isinstance` tests are the functions that follow. -/

/-- The `error.original` wrapped by a `CommandInvokeError`: its dynamic type
as far as the handler tests it (`discord.HTTPException`,
`asyncio.TimeoutError`, or anything else). -/
inductive OriginalError where
  | httpException (text : String)
  | timeoutError
  | otherExc (text : String)
deriving DecidableEq

/-- The test `isinstance(error.original, discord.HTTPException)`. -/
def OriginalError.isHTTP : OriginalError → Bool
  | .httpException _ => true
  | _ => false

/-- The test `isinstance(error.original, asyncio.TimeoutError)`. -/
def OriginalError.isTimeout : OriginalError → Bool
  | .timeoutError => true
  | _ => false

/-- The dynamic type of an `app_commands.AppCommandError` as far as the
handler distinguishes it.  `checkFailure` stands for any `CheckFailure`
subclass other than `CommandOnCooldown`; `otherError` for any
`AppCommandError` outside the three tested classes.  `retry_after` is a
Python float, modelled here by the exact rational it denotes. -/
inductive AppError where
  | commandOnCooldown (retryAfter : ℚ)
  | checkFailure
  | commandInvokeError (original : OriginalError)
  | otherError
deriving DecidableEq

/-- The test `isinstance(error, app_commands.CommandOnCooldown)`. -/
def AppError.isCommandOnCooldown : AppError → Bool
  | .commandOnCooldown _ => true
  | _ => false

/-- The test `isinstance(error, app_commands.CheckFailure)`: true for `checkFailure`
and for `commandOnCooldown`, since discord.py declares
`class CommandOnCooldown(CheckFailure)`. -/
def AppError.isCheckFailure : AppError → Bool
  | .commandOnCooldown _ => true
  | .checkFailure => true
  | _ => false

/-- The test `isinstance(error, app_commands.CommandInvokeError)`. -/
def AppError.isCommandInvokeError : AppError → Bool
  | .commandInvokeError _ => true
  | _ => false

/-- The attribute `error.retry_after` (only read on the cooldown branch). -/
def AppError.retryAfter : AppError → ℚ
  | .commandOnCooldown q => q
  | _ => 0

/-- The attribute `error.original` (only read on the invoke-error branch). -/
def AppError.original : AppError → OriginalError
  | .commandInvokeError o => o
  | _ => .otherExc ""

/-- Python 3 `round(x)` to an integer: nearest integer, ties to the even
integer. -/
def pyRound (q : ℚ) : ℤ :=
  let f := ⌊q⌋
  let r := q - (f : ℚ)
  if r < 1/2 then f
  else if 1/2 < r then f + 1
  else if f % 2 = 0 then f else f + 1

/-- The part of the interaction state the handler reads:
`interaction.response.is_done()`. -/
structure InteractionState where
  responseDone : Bool
deriving DecidableEq

/-- A message the handler sends: via `interaction.response.send_message` or
via `interaction.followup.send`. -/
inductive HandlerSend where
  | response (msg : String) (ephemeral : Bool)
  | followup (msg : String) (ephemeral : Bool)
deriving DecidableEq

/-- The cooldown reply text, carrying `round(error.retry_after)`. -/
def cooldownMessage (retryAfter : ℚ) : String :=
  "명령어 쿨다운: " ++ toString (pyRound retryAfter) ++ "초 남음"

/-- The fixed `CheckFailure` reply. -/
def noPermissionMessage : String :=
  "권한이 없거나 이 채널에서 사용할 수 없는 명령어입니다."

/-- The `error_msg` chosen on the `CommandInvokeError` branch: default, then
overridden for `discord.HTTPException` and `asyncio.TimeoutError`. -/
def invokeErrorMessage (original : OriginalError) : String :=
  if original.isHTTP then "Discord API 오류가 발생했습니다."
  else if original.isTimeout then "요청 시간이 초과되었습니다."
  else "명령어 실행 중 오류가 발생했습니다."

/-- The body of `on_app_command_error` (inside the `try`): the messages it
sends, in order, as a function of the error and the interaction state. -/
def handlerBody (st : InteractionState) (error : AppError) :
    List HandlerSend :=
  if error.isCommandOnCooldown then
    [HandlerSend.response (cooldownMessage error.retryAfter) true]
  else if error.isCheckFailure then
    [HandlerSend.response noPermissionMessage true]
  else if error.isCommandInvokeError then
    let msg := invokeErrorMessage error.original
    if !st.responseDone then [HandlerSend.response msg true]
    else [HandlerSend.followup msg true]
  else []

/-- Execute the sends of the body against an oracle `sendFails` (`some e` means the
send raises an exception whose `str()` is `e`): the sends performed before the
first failure, and that failure if any. -/
def runSends (sendFails : HandlerSend → Option String) :
    List HandlerSend → List HandlerSend × Option String
  | [] => ([], none)
  | s :: rest =>
    match sendFails s with
    | some e => ([], some e)
    | none =>
      let (done, exn) := runSends sendFails rest
      (s :: done, exn)

/-- The final outcome of `on_app_command_error`: the messages that went out,
and the log entry of the `except` clause if the body raised.  The handler is a
total function into this type: an exception inside it is caught and logged,
never propagated. -/
structure HandlerOutcome where
  sent : List HandlerSend
  loggedFailure : Option String
deriving DecidableEq

/-- The handler `on_app_command_error` with its surrounding `try`/`except`. -/
def on_app_command_error (sendFails : HandlerSend → Option String)
    (st : InteractionState) (error : AppError) : HandlerOutcome :=
  let (sent, exn) := runSends sendFails (handlerBody st error)
  { sent := sent
    loggedFailure := exn.map (fun e => "Error handler failed: " ++ e) }

/-! ## Credential loading (lines 37-44)

`load_dotenv` merges the adjacent `.env` file into the process environment;
`env` below models `os.getenv` over the resulting environment. -/

/-- The guard `if not DISCORD_TOKEN`: Python falsiness of an `Optional[str]` — `None`
and the empty string are falsy. -/
def pyFalsyStrOpt : Option String → Bool
  | none => true
  | some s => s = ""

/-- The module-level token check: read `DISCORD_TOKEN` from the environment;
if falsy, log and raise `ValueError` (modelled as `Except.error` with the
`ValueError` message); otherwise the token value reaches `bot.start`. -/
def discordTokenCheck (env : String → Option String) : Except String String :=
  let t := env "DISCORD_TOKEN"
  if pyFalsyStrOpt t then Except.error "DISCORD_TOKEN 환경 변수가 누락되었습니다."
  else Except.ok (t.getD "")

/-! ## Presence rotation: `on_ready.rotate_activity` (lines 88-103) -/

/-- The activity types `main.py` uses (`discord.Game` is the playing type). -/
inductive ActivityType where
  | playing
  | listening
deriving DecidableEq

/-- A `discord` activity as constructed in `on_ready`. -/
structure Activity where
  type : ActivityType
  name : String
deriving DecidableEq

instance : Inhabited Activity := ⟨⟨ActivityType.playing, ""⟩⟩

/-- The type `discord.Status` as used here. -/
inductive Status where
  | online
deriving DecidableEq

/-- The `activities` list of `on_ready`. -/
def activities : List Activity :=
  [ ⟨ActivityType.playing, "/도움말"⟩
  , ⟨ActivityType.listening, "명령어"⟩
  , ⟨ActivityType.playing, "문의: example@mail.com"⟩ ]

/-- The value of `idx` at the start of the k-th iteration of the `while True`
loop: `idx` starts at 0 and each iteration sets `idx = (idx + 1) %
len(activities)`. -/
def rotateIdx : Nat → Nat
  | 0 => 0
  | k + 1 => (rotateIdx k + 1) % activities.length

/-- One presence change performed by `change_presence`. -/
structure PresenceChange where
  status : Status
  activity : Activity
deriving DecidableEq

/-- The k-th iteration of `rotate_activity` (counting from 0): the presence
change it performs and the seconds it then sleeps. -/
def rotate_activity (k : Nat) : PresenceChange × Nat :=
  (⟨Status.online, activities.getD (rotateIdx k) default⟩, 300)

/-! ## Helper lemmas -/

/-- Folding `add_field` over the subcommands appends one field per
subcommand, in order. -/
lemma foldl_addField_subFields (gname : String) (l : List Subcommand) :
    ∀ e : Embed,
      (l.foldl (fun e s => e.addField (subField gname s)) e).fields
        = e.fields ++ l.map (subField gname) := by
  induction l with
  | nil => intro e; simp
  | cons s t ih =>
    intro e
    rw [List.foldl_cons, ih]
    simp [Embed.addField]

/-- Unfolding one step of the overview group loop. -/
lemma addGroupFields_cons (c : AppCommand) (t : List AppCommand) (e : Embed) :
    addGroupFields (c :: t) e
      = addGroupFields t (if c.isGroup then e.addField (groupField c) else e) :=
  rfl

/-- The group loop of the overview appends one field per registered group, in
order. -/
lemma addGroupFields_fields (tree : List AppCommand) :
    ∀ e : Embed,
      (addGroupFields tree e).fields
        = e.fields ++ (tree.filter (fun c => c.isGroup)).map groupField := by
  induction tree with
  | nil => intro e; simp [addGroupFields]
  | cons c t ih =>
    intro e
    by_cases hc : c.isGroup
    · rw [addGroupFields_cons, if_pos hc, ih]
      simp [Embed.addField, hc]
    · rw [addGroupFields_cons, if_neg hc, ih]
      simp [hc]

/-- With pairwise-distinct registered names, `get_command` returns the
registered command with the requested name. -/
lemma getCommand_eq_of_mem {tree : List AppCommand} {c : AppCommand}
    (hmem : c ∈ tree) (hnodup : (tree.map AppCommand.name).Nodup) :
    getCommand tree c.name = some c := by
  induction tree with
  | nil => cases hmem
  | cons a t ih =>
    simp only [List.map_cons, List.nodup_cons] at hnodup
    rcases List.mem_cons.1 hmem with h | h
    · subst h
      simp [getCommand, List.find?_cons_of_pos]
    · have hne : a.name ≠ c.name := by
        intro he
        exact hnodup.1 (he ▸ List.mem_map_of_mem AppCommand.name h)
      have := ih h hnodup.2
      simpa [getCommand, List.find?_cons_of_neg, hne] using this

/-! ## Claim theorems: the help command (C1, C2) -/

/-- C1 (counterexample): as stated, the claim is false — for a subcommand with
no parameters the usage string of the field is not `"/<group> <sub>"`: the
format string building it always appends a space after the
subcommand name, so the code produces `"/g s "` (trailing space), not
`"/g s"`. -/
theorem help_command_usage_trailing_space_cex :
    help_command [AppCommand.group "g" "gd" [⟨"s", "d", []⟩]] (some "g")
      = [Send.defer, Send.followupEmbed
          { title := "📚 G 카테고리 도움말"
            descr := "G 카테고리에서 사용할 수 있는 모든 명령어입니다."
            fields := [{ name := "/g s ", value := "💡 d", inline := false }]
            footer := some "[] = 필수 항목, () = 선택 항목" }]
    ∧ "/g s " ≠ "/g s" := by
  decide

/-- C1 (amended): for every registered command group (with pairwise-distinct
registered names and a nonempty group name, as discord.py guarantees) and
category string equal after lowercasing to the name of the group, `help_command`
sends an embed with exactly one field per subcommand of the group, in
declaration order; the usage string of each field is `"/<group> <sub> "` followed
by the space-separated parameters in order (`[name]` if required, `(name)` if
optional — so a trailing space remains when there are no parameters), and the
field value includes the usage block exactly when the subcommand has at least
one parameter. -/
theorem help_command_category_fields
    (tree : List AppCommand) (n d : String) (subs : List Subcommand)
    (cat : String)
    (hmem : AppCommand.group n d subs ∈ tree)
    (hnodup : (tree.map AppCommand.name).Nodup)
    (hcat : pyLower cat = n) (hn : n ≠ "") :
    ∃ e : Embed,
      help_command tree (some cat) = [Send.defer, Send.followupEmbed e]
      ∧ e.fields = subs.map (subField n)
      ∧ ∀ s ∈ subs,
          (subField n s).name
            = "/" ++ n ++ " " ++ s.name ++ " "
                ++ String.intercalate " "
                    (s.parameters.map
                      (fun p => if p.required then "[" ++ p.name ++ "]"
                                else "(" ++ p.name ++ ")"))
          ∧ (s.parameters = [] →
              (subField n s).value = "💡 " ++ s.description)
          ∧ (s.parameters ≠ [] →
              (subField n s).value
                = "💡 " ++ s.description ++ "\n```사용법: "
                    ++ (subField n s).name ++ "```") := by
  have hcatne : cat ≠ "" := by
    intro h
    apply hn
    rw [h] at hcat
    exact hcat.symm.trans rfl
  have hget : getCommand tree (pyLower cat)
      = some (AppCommand.group n d subs) := by
    rw [hcat]
    exact getCommand_eq_of_mem hmem hnodup
  refine ⟨categoryEmbed (pyLower cat) n subs, ?_, ?_, ?_⟩
  · simp [help_command, hcatne, hget]
  · simp [categoryEmbed, foldl_addField_subFields]
  · intro s _
    refine ⟨rfl, ?_, ?_⟩
    · intro hp
      simp [subField, hp]
    · intro hp
      have hne : s.parameters.isEmpty = false := by
        simpa [List.isEmpty_iff] using hp
      simp [subField, hne, subUsage, String.append_assoc]

/-- C1 (witness for the amended theorem): a concrete tree with one group
`music` holding one subcommand with one required and one optional
parameter. -/
theorem help_command_category_fields_witness :
    (AppCommand.group "music" "md"
        [⟨"play", "pd", [⟨"query", true⟩, ⟨"volume", false⟩]⟩]
      ∈ [AppCommand.group "music" "md"
          [⟨"play", "pd", [⟨"query", true⟩, ⟨"volume", false⟩]⟩]])
    ∧ ([AppCommand.group "music" "md"
          [⟨"play", "pd", [⟨"query", true⟩, ⟨"volume", false⟩]⟩]].map
            AppCommand.name).Nodup
    ∧ pyLower "Music" = "music"
    ∧ "music" ≠ ""
    ∧ ∃ e : Embed,
        help_command
            [AppCommand.group "music" "md"
              [⟨"play", "pd", [⟨"query", true⟩, ⟨"volume", false⟩]⟩]]
            (some "Music")
          = [Send.defer, Send.followupEmbed e]
        ∧ e.fields
            = [⟨"play", "pd", [⟨"query", true⟩, ⟨"volume", false⟩]⟩].map
                (subField "music")
        ∧ ∀ s ∈ [(⟨"play", "pd", [⟨"query", true⟩, ⟨"volume", false⟩]⟩ :
              Subcommand)],
            (subField "music" s).name
              = "/" ++ "music" ++ " " ++ s.name ++ " "
                  ++ String.intercalate " "
                      (s.parameters.map
                        (fun p => if p.required then "[" ++ p.name ++ "]"
                                  else "(" ++ p.name ++ ")"))
            ∧ (s.parameters = [] →
                (subField "music" s).value = "💡 " ++ s.description)
            ∧ (s.parameters ≠ [] →
                (subField "music" s).value
                  = "💡 " ++ s.description ++ "\n```사용법: "
                      ++ (subField "music" s).name ++ "```") :=
  ⟨by decide, by decide, by decide, by decide,
    help_command_category_fields _ "music" "md" _ "Music"
      (by decide) (by decide) (by decide) (by decide)⟩

/-- C2: with no category, the overview embed holds one field per registered
top-level group (in registration order), followed — exactly when at least one
registered command is not a group — by a single field named `--특수 명령어--`
listing every non-group command as `/<name> - <description>`, one per line;
with no non-group commands that field is absent. -/
theorem help_command_overview_fields (tree : List AppCommand) :
    ∃ e : Embed,
      help_command tree none = [Send.defer, Send.followupEmbed e]
      ∧ e.fields
          = (tree.filter (fun c => c.isGroup)).map groupField
            ++ (if (tree.filter fun c => !c.isGroup) = [] then []
                else [{ name := "--특수 명령어--"
                        value := String.intercalate "\n"
                          ((tree.filter fun c => !c.isGroup).map
                            (fun c => "/" ++ c.name ++ " - " ++ c.description))
                        inline := false }]) := by
  refine ⟨overviewEmbed tree, rfl, ?_⟩
  by_cases h : (tree.filter fun c => !c.isGroup) = []
  · simp [overviewEmbed, h, addGroupFields_fields]
  · have hne : (tree.filter fun c => !c.isGroup).isEmpty = false := by
      simpa [List.isEmpty_iff] using h
    simp [overviewEmbed, h, hne, addGroupFields_fields, Embed.addField]
    rfl

/-! ## Characterizing the `setup_hook` loop -/

/-- The extensions of the eligible files of a directory listing, in order. -/
def eligibleExts (files : List String) : List String :=
  (files.filter cogEligible).map extensionOf

/-- The extensions `setup_hook` will attempt given the `_loaded_cogs` set
`L0` it starts from. -/
def newAttempts (files : List String) (L0 : List String) : List String :=
  (eligibleExts files).filter (fun e => decide (e ∉ L0))

/-- Characterization of the `setup_hook` loop, generalized over the threaded
state: provided the eligible extensions are pairwise distinct (as they are for
a directory listing) and membership of the current `_loaded_cogs` agrees with
the reference set `L0` on them, the loop attempts exactly the eligible
not-yet-loaded extensions in order, appends the successful ones to
`_loaded_cogs`, and appends the failing ones with their messages to
`failed_cogs`. -/
lemma setup_foldl_char (load : String → Option String) :
    ∀ (files : List String) (st : SetupState) (L0 : List String),
      (eligibleExts files).Nodup →
      (∀ e ∈ eligibleExts files, e ∈ st.loaded ↔ e ∈ L0) →
      files.foldl (setupStep load) st =
        { loaded := st.loaded
            ++ (newAttempts files L0).filter (fun e => (load e).isNone)
          failed := st.failed
            ++ (newAttempts files L0).filterMap
                (fun e => (load e).map (fun m => (e, m)))
          attempts := st.attempts ++ newAttempts files L0 } := by
  intro files
  induction files with
  | nil =>
    intro st L0 _ _
    simp [newAttempts, eligibleExts]
  | cons f fs ih =>
    intro st L0 hnd hmem
    by_cases hc : cogEligible f
    · have hexts : eligibleExts (f :: fs)
          = extensionOf f :: eligibleExts fs := by
        simp [eligibleExts, hc]
      rw [hexts] at hnd hmem
      have hndtail := (List.nodup_cons.1 hnd).2
      have hnothd := (List.nodup_cons.1 hnd).1
      have hmm : extensionOf f ∈ st.loaded ↔ extensionOf f ∈ L0 :=
        hmem _ (List.mem_cons_self _ _)
      have hmemtail :
          ∀ e ∈ eligibleExts fs, e ∈ st.loaded ↔ e ∈ L0 :=
        fun e he => hmem e (List.mem_cons_of_mem _ he)
      rw [List.foldl_cons]
      by_cases hL : extensionOf f ∈ L0
      · have hstl : extensionOf f ∈ st.loaded := hmm.mpr hL
        have hstep : setupStep load st f = st := by
          simp [setupStep, hc, hstl]
        have hna : newAttempts (f :: fs) L0 = newAttempts fs L0 := by
          simp [newAttempts, hexts, hL]
        rw [hstep, hna]
        exact ih st L0 hndtail hmemtail
      · have hstl : extensionOf f ∉ st.loaded := fun hx => hL (hmm.mp hx)
        have hna : newAttempts (f :: fs) L0
            = extensionOf f :: newAttempts fs L0 := by
          simp [newAttempts, hexts, hL]
        rw [hna]
        cases hload : load (extensionOf f) with
        | none =>
          have hstep : setupStep load st f
              = { st with
                    loaded := st.loaded ++ [extensionOf f]
                    attempts := st.attempts ++ [extensionOf f] } := by
            simp [setupStep, hc, hstl, hload]
          rw [hstep]
          have hmemtail' :
              ∀ e ∈ eligibleExts fs,
                e ∈ st.loaded ++ [extensionOf f] ↔ e ∈ L0 := by
            intro e he
            have hne : e ≠ extensionOf f := by
              intro h
              exact hnothd (h ▸ he)
            simp [List.mem_append, hne, hmemtail e he]
          rw [ih _ L0 hndtail hmemtail']
          simp [hload, List.append_assoc]
        | some m =>
          have hstep : setupStep load st f
              = { st with
                    failed := st.failed ++ [(extensionOf f, m)]
                    attempts := st.attempts ++ [extensionOf f] } := by
            simp [setupStep, hc, hstl, hload]
          rw [hstep]
          rw [ih { st with
                    failed := st.failed ++ [(extensionOf f, m)]
                    attempts := st.attempts ++ [extensionOf f] }
              L0 hndtail hmemtail]
          simp [hload, List.append_assoc]
    · have hexts : eligibleExts (f :: fs) = eligibleExts fs := by
        simp [eligibleExts, hc]
      rw [hexts] at hnd hmem
      have hstep : setupStep load st f = st := by
        simp [setupStep, hc]
      have hna : newAttempts (f :: fs) L0 = newAttempts fs L0 := by
        simp [newAttempts, eligibleExts, hc]
      rw [List.foldl_cons, hstep, hna]
      exact ih st L0 hnd hmem

/-! ## Characterizing the retry loop -/

/-- Whether a retry event is a `load_extension` attempt on extension `x`. -/
def isAttemptOn (x : String) : RetryEvent → Bool
  | RetryEvent.attempt e _ => e = x
  | _ => false

/-- The one step of the `retry_failed_cogs` fold. -/
def retryStep (load : String → Option String)
    (acc : List RetryEvent × List String) (p : String × String) :
    List RetryEvent × List String :=
  match load p.1 with
  | none => (acc.1 ++ [RetryEvent.attempt p.1 true], setAdd acc.2 p.1)
  | some _ => (acc.1 ++ [RetryEvent.attempt p.1 false], acc.2)

/-- Unfolding: `retry_failed_cogs` is the fold of `retryStep`. -/
lemma retry_failed_cogs_eq_foldl (failed : List (String × String))
    (load : String → Option String) (loaded : List String) :
    retry_failed_cogs failed load loaded
      = failed.foldl (retryStep load) ([RetryEvent.sleep 5], loaded) :=
  rfl

/-- Membership in `setAdd`. -/
lemma mem_setAdd {l : List String} {x e : String} :
    e ∈ setAdd l x ↔ e ∈ l ∨ e = x := by
  by_cases h : x ∈ l
  · simp only [setAdd, if_pos h]
    constructor
    · exact Or.inl
    · rintro (he | he)
      · exact he
      · exact he ▸ h
  · simp [setAdd, if_neg h, List.mem_append]

/-- The retry trace: one attempt per failed entry, in order. -/
lemma retry_foldl_fst (load : String → Option String) :
    ∀ (failed : List (String × String)) (tr : List RetryEvent)
      (loaded : List String),
      (failed.foldl (retryStep load) (tr, loaded)).1
        = tr ++ failed.map
            (fun p => RetryEvent.attempt p.1 (load p.1).isNone) := by
  intro failed
  induction failed with
  | nil => intro tr loaded; simp
  | cons p t ih =>
    intro tr loaded
    cases hload : load p.1 with
    | none => simp [retryStep, hload, ih]
    | some m => simp [retryStep, hload, ih]

/-- The resulting `_loaded_cogs` of the retry loop: an extension is in it iff
it was already there or its retry succeeded. -/
lemma retry_foldl_snd_mem (load : String → Option String) :
    ∀ (failed : List (String × String)) (tr : List RetryEvent)
      (loaded : List String) (e : String),
      e ∈ (failed.foldl (retryStep load) (tr, loaded)).2
        ↔ e ∈ loaded ∨ ∃ p ∈ failed, p.1 = e ∧ load e = none := by
  intro failed
  induction failed with
  | nil => intro tr loaded e; simp
  | cons p t ih =>
    intro tr loaded e
    cases hload : load p.1 with
    | none =>
      rw [List.foldl_cons]
      have : retryStep load (tr, loaded) p
          = (tr ++ [RetryEvent.attempt p.1 true], setAdd loaded p.1) := by
        simp [retryStep, hload]
      rw [this, ih]
      constructor
      · rintro (hin | ⟨q, hq, hqe, hqn⟩)
        · rcases mem_setAdd.1 hin with hin | hin
          · exact Or.inl hin
          · exact Or.inr ⟨p, List.mem_cons_self _ _, hin.symm, hin ▸ hload⟩
        · exact Or.inr ⟨q, List.mem_cons_of_mem _ hq, hqe, hqn⟩
      · rintro (hin | ⟨q, hq, hqe, hqn⟩)
        · exact Or.inl (mem_setAdd.2 (Or.inl hin))
        · rcases List.mem_cons.1 hq with hq | hq
          · exact Or.inl (mem_setAdd.2 (Or.inr (hq ▸ hqe.symm)))
          · exact Or.inr ⟨q, hq, hqe, hqn⟩
    | some m =>
      rw [List.foldl_cons]
      have : retryStep load (tr, loaded) p
          = (tr ++ [RetryEvent.attempt p.1 false], loaded) := by
        simp [retryStep, hload]
      rw [this, ih]
      constructor
      · rintro (hin | ⟨q, hq, hqe, hqn⟩)
        · exact Or.inl hin
        · exact Or.inr ⟨q, List.mem_cons_of_mem _ hq, hqe, hqn⟩
      · rintro (hin | ⟨q, hq, hqe, hqn⟩)
        · exact Or.inl hin
        · rcases List.mem_cons.1 hq with hq | hq
          · exact absurd hqn (by rw [← hqe, hq, hload]; simp)
          · exact Or.inr ⟨q, hq, hqe, hqn⟩

/-- Counting the attempts on a given extension in the retry trace. -/
lemma retry_attempt_filter_length (load : String → Option String)
    (failed : List (String × String)) (x : String) :
    ((failed.map (fun p => RetryEvent.attempt p.1 (load p.1).isNone)).filter
        (isAttemptOn x)).length
      = (failed.map Prod.fst).count x := by
  induction failed with
  | nil => simp
  | cons p t ih =>
    by_cases hx : p.1 = x
    · simp [List.filter_cons, isAttemptOn, hx, ih, List.count_cons]
    · simp [List.filter_cons, isAttemptOn, hx, ih, List.count_cons]

/-! ## Claim theorems: cog loading (C3, C4, C9) -/

/-- C3: in `setup_hook`, for a directory listing whose eligible extensions
are pairwise distinct, `load_extension` is attempted on `cogs.<stem>` exactly
for the filenames ending in `.py` other than `__init__.py` whose extension is
not already in `_loaded_cogs`; the successful attempts are appended to
`_loaded_cogs` and the failing ones are collected (with their error text) in
the `failed_cogs` list, the loop continuing past failures. -/
theorem setup_hook_load_policy (files : List String)
    (load : String → Option String) (loaded0 : List String)
    (hnodup : (eligibleExts files).Nodup) :
    (∀ ext, ext ∈ (setup_hook files load loaded0).attempts
        ↔ ∃ f ∈ files, cogEligible f = true ∧ extensionOf f = ext
            ∧ ext ∉ loaded0)
    ∧ (setup_hook files load loaded0).loaded
        = loaded0
          ++ ((setup_hook files load loaded0).attempts.filter
                (fun e => (load e).isNone))
    ∧ (setup_hook files load loaded0).failed
        = (setup_hook files load loaded0).attempts.filterMap
            (fun e => (load e).map (fun m => (e, m))) := by
  have hchar := setup_foldl_char load files ⟨loaded0, [], []⟩ loaded0 hnodup
    (fun e _ => Iff.rfl)
  have hs : setup_hook files load loaded0
      = { loaded := loaded0
            ++ (newAttempts files loaded0).filter (fun e => (load e).isNone)
          failed := (newAttempts files loaded0).filterMap
            (fun e => (load e).map (fun m => (e, m)))
          attempts := newAttempts files loaded0 } := by
    rw [setup_hook, hchar]
    simp
  refine ⟨?_, ?_, ?_⟩
  · intro ext
    rw [hs]
    simp only [newAttempts, eligibleExts, List.mem_filter, List.mem_map,
      List.mem_filter, decide_eq_true_eq]
    constructor
    · rintro ⟨⟨f, ⟨hf, hel⟩, hfe⟩, hnl⟩
      exact ⟨f, hf, hel, hfe, hnl⟩
    · rintro ⟨f, hf, hel, hfe, hnl⟩
      exact ⟨⟨f, ⟨hf, hel⟩, hfe⟩, hnl⟩
  · rw [hs]
  · rw [hs]

/-- C3 (witness): a listing with one loadable cog, one failing cog, one
non-Python file, `__init__.py`, and one cog already loaded. -/
theorem setup_hook_load_policy_witness :
    (eligibleExts ["a.py", "b.py", "notes.txt", "__init__.py", "c.py"]).Nodup
    ∧ ((∀ ext,
        ext ∈ (setup_hook ["a.py", "b.py", "notes.txt", "__init__.py", "c.py"]
            (fun e => if e = "cogs.b" then some "boom" else none)
            ["cogs.c"]).attempts
          ↔ ∃ f ∈ ["a.py", "b.py", "notes.txt", "__init__.py", "c.py"],
              cogEligible f = true ∧ extensionOf f = ext ∧ ext ∉ ["cogs.c"])
      ∧ (setup_hook ["a.py", "b.py", "notes.txt", "__init__.py", "c.py"]
            (fun e => if e = "cogs.b" then some "boom" else none)
            ["cogs.c"]).loaded
          = ["cogs.c"]
            ++ ((setup_hook ["a.py", "b.py", "notes.txt", "__init__.py", "c.py"]
                  (fun e => if e = "cogs.b" then some "boom" else none)
                  ["cogs.c"]).attempts.filter
                  (fun e => ((fun e => if e = "cogs.b" then some "boom" else none) e).isNone))
      ∧ (setup_hook ["a.py", "b.py", "notes.txt", "__init__.py", "c.py"]
            (fun e => if e = "cogs.b" then some "boom" else none)
            ["cogs.c"]).failed
          = (setup_hook ["a.py", "b.py", "notes.txt", "__init__.py", "c.py"]
                (fun e => if e = "cogs.b" then some "boom" else none)
                ["cogs.c"]).attempts.filterMap
              (fun e => (((fun e => if e = "cogs.b" then some "boom" else none) e)).map
                (fun m => (e, m)))) :=
  ⟨by decide,
    setup_hook_load_policy ["a.py", "b.py", "notes.txt", "__init__.py", "c.py"]
      (fun e => if e = "cogs.b" then some "boom" else none) ["cogs.c"]
      (by decide)⟩

/-- C4: the scheduled retry task sleeps 5 seconds, then retries exactly the
initially failed extensions, once each (given the pairwise-distinct extensions
a single directory walk produces), in the order the failures occurred; a
successful retry adds the extension to `_loaded_cogs` and a failed retry
leaves the state unchanged (it is logged, and no further retry exists in the
trace). -/
theorem retry_failed_cogs_spec (failed : List (String × String))
    (load : String → Option String) (loaded : List String)
    (hnodup : (failed.map Prod.fst).Nodup) :
    (retry_failed_cogs failed load loaded).1
        = RetryEvent.sleep 5
            :: failed.map (fun p => RetryEvent.attempt p.1 (load p.1).isNone)
    ∧ (∀ p ∈ failed,
        (((retry_failed_cogs failed load loaded).1).filter
            (isAttemptOn p.1)).length = 1)
    ∧ (∀ e, e ∈ (retry_failed_cogs failed load loaded).2
        ↔ e ∈ loaded ∨ ∃ p ∈ failed, p.1 = e ∧ load e = none) := by
  refine ⟨?_, ?_, ?_⟩
  · rw [retry_failed_cogs_eq_foldl, retry_foldl_fst]
    rfl
  · intro p hp
    rw [retry_failed_cogs_eq_foldl, retry_foldl_fst]
    have hsleep : isAttemptOn p.1 (RetryEvent.sleep 5) = false := rfl
    rw [show ([RetryEvent.sleep 5] : List RetryEvent)
          ++ failed.map (fun p => RetryEvent.attempt p.1 (load p.1).isNone)
        = RetryEvent.sleep 5
            :: failed.map (fun p => RetryEvent.attempt p.1 (load p.1).isNone)
      from rfl]
    rw [List.filter_cons_of_neg (by simp [hsleep])]
    rw [retry_attempt_filter_length]
    exact List.count_eq_one_of_mem hnodup (List.mem_map_of_mem Prod.fst hp)
  · intro e
    rw [retry_failed_cogs_eq_foldl]
    exact retry_foldl_snd_mem load failed _ loaded e

/-- C4 (witness): two failed cogs, the first of which loads on retry and the
second fails again. -/
theorem retry_failed_cogs_spec_witness :
    ((([("cogs.a", "e1"), ("cogs.b", "e2")] : List (String × String)).map
        Prod.fst).Nodup)
    ∧ ((retry_failed_cogs [("cogs.a", "e1"), ("cogs.b", "e2")]
          (fun e => if e = "cogs.a" then none else some "x") ["cogs.z"]).1
        = RetryEvent.sleep 5
            :: ([("cogs.a", "e1"), ("cogs.b", "e2")] : List (String × String)).map
                (fun p => RetryEvent.attempt p.1
                  ((fun e => if e = "cogs.a" then none else some ("x" : String)) p.1).isNone)
      ∧ (∀ p ∈ ([("cogs.a", "e1"), ("cogs.b", "e2")] : List (String × String)),
          (((retry_failed_cogs [("cogs.a", "e1"), ("cogs.b", "e2")]
              (fun e => if e = "cogs.a" then none else some "x") ["cogs.z"]).1).filter
              (isAttemptOn p.1)).length = 1)
      ∧ (∀ e, e ∈ (retry_failed_cogs [("cogs.a", "e1"), ("cogs.b", "e2")]
              (fun e => if e = "cogs.a" then none else some "x") ["cogs.z"]).2
          ↔ e ∈ ["cogs.z"]
            ∨ ∃ p ∈ ([("cogs.a", "e1"), ("cogs.b", "e2")] : List (String × String)),
                p.1 = e
                ∧ (fun e => if e = "cogs.a" then none else some ("x" : String)) e
                    = none)) :=
  ⟨by decide,
    retry_failed_cogs_spec [("cogs.a", "e1"), ("cogs.b", "e2")]
      (fun e => if e = "cogs.a" then none else some "x") ["cogs.z"]
      (by decide)⟩

/-- C9: `_loaded_cogs` only ever holds successfully loaded extensions.  With
pairwise-distinct eligible extensions: (a) the extensions `setup_hook` calls
`load_extension` on are pairwise distinct and none of them is already in
`_loaded_cogs`; (b) running `setup_hook` from the empty set of `__init__` and
then the retry task, every member of the resulting `_loaded_cogs` had a
successful initial load or a successful retry — entries are added only right
after a successful load; (c) `close` unloads each member but removes no entry
from the set, so nothing outside shutdown (or inside it, in fact) ever
removes entries. -/
theorem loaded_cogs_only_successful (files : List String)
    (load1 load2 : String → Option String) (loaded0 : List String)
    (hnodup : (eligibleExts files).Nodup) :
    ((setup_hook files load1 loaded0).attempts.Nodup
      ∧ ∀ e ∈ (setup_hook files load1 loaded0).attempts, e ∉ loaded0)
    ∧ (∀ e, e ∈ (retry_failed_cogs (setup_hook files load1 []).failed load2
            (setup_hook files load1 []).loaded).2 →
        load1 e = none ∨ load2 e = none)
    ∧ (∀ l : List String, close_cleanup l = (l, l)) := by
  have hchar0 := setup_foldl_char load1 files ⟨loaded0, [], []⟩ loaded0 hnodup
    (fun e _ => Iff.rfl)
  have hattempts : (setup_hook files load1 loaded0).attempts
      = newAttempts files loaded0 := by
    rw [setup_hook, hchar0]
    simp
  have hcharNil := setup_foldl_char load1 files ⟨[], [], []⟩ [] hnodup
    (fun e _ => Iff.rfl)
  have hloadedNil : (setup_hook files load1 []).loaded
      = (newAttempts files []).filter (fun e => (load1 e).isNone) := by
    rw [setup_hook, hcharNil]
    simp
  refine ⟨⟨?_, ?_⟩, ?_, ?_⟩
  · rw [hattempts]
    exact (hnodup.filter _)
  · intro e he
    rw [hattempts] at he
    have := (List.mem_filter.1 he).2
    simpa using this
  · intro e he
    rw [retry_failed_cogs_eq_foldl] at he
    rcases (retry_foldl_snd_mem load2 _ _ _ e).1 he with hin | ⟨p, _, _, hnone⟩
    · rw [hloadedNil] at hin
      have := (List.mem_filter.1 hin).2
      exact Or.inl (Option.isNone_iff_eq_none.1 this)
    · exact Or.inr hnone
  · intro l
    rfl

/-- C9 (witness): the pipeline on a concrete listing where `cogs.a` loads,
`cogs.b` fails initially and succeeds on retry, and `cogs.c` fails twice. -/
theorem loaded_cogs_only_successful_witness :
    (eligibleExts ["a.py", "b.py", "c.py"]).Nodup
    ∧ (((setup_hook ["a.py", "b.py", "c.py"]
            (fun e => if e = "cogs.a" then none else some "e1") ["cogs.z"]).attempts.Nodup
        ∧ ∀ e ∈ (setup_hook ["a.py", "b.py", "c.py"]
            (fun e => if e = "cogs.a" then none else some "e1") ["cogs.z"]).attempts,
            e ∉ ["cogs.z"])
      ∧ (∀ e, e ∈ (retry_failed_cogs
              (setup_hook ["a.py", "b.py", "c.py"]
                (fun e => if e = "cogs.a" then none else some "e1") []).failed
              (fun e => if e = "cogs.b" then none else some "e2")
              (setup_hook ["a.py", "b.py", "c.py"]
                (fun e => if e = "cogs.a" then none else some "e1") []).loaded).2 →
          (fun e => if e = "cogs.a" then none else some ("e1" : String)) e = none
          ∨ (fun e => if e = "cogs.b" then none else some ("e2" : String)) e = none)
      ∧ (∀ l : List String, close_cleanup l = (l, l))) :=
  ⟨by decide,
    loaded_cogs_only_successful ["a.py", "b.py", "c.py"]
      (fun e => if e = "cogs.a" then none else some "e1")
      (fun e => if e = "cogs.b" then none else some "e2")
      ["cogs.z"] (by decide)⟩

/-! ## Claim theorems: the error handler (C5, C6, C10) -/

/-- C5 (counterexample): the second half of the claim fails as stated.  In
discord.py, `app_commands.CommandOnCooldown` is a subclass of
`app_commands.CheckFailure`, so a cooldown error *is* a `CheckFailure`; yet
the handler (which tests `CommandOnCooldown` first) replies with the cooldown
message, not the fixed no-permission message. -/
theorem cooldown_is_checkfailure_cex :
    (AppError.commandOnCooldown 7).isCheckFailure = true
    ∧ (on_app_command_error (fun _ => none) ⟨false⟩
          (AppError.commandOnCooldown 7)).sent
        = [HandlerSend.response "명령어 쿨다운: 7초 남음" true]
    ∧ ("명령어 쿨다운: 7초 남음" : String) ≠ noPermissionMessage := by
  refine ⟨rfl, ?_, by decide⟩
  have h7 : pyRound 7 = 7 := by norm_num [pyRound]
  simp [on_app_command_error, handlerBody, AppError.isCommandOnCooldown,
    AppError.retryAfter, runSends, cooldownMessage, h7]
  decide

/-- C5 (amended): when the sends succeed, a `CommandOnCooldown` error is
answered ephemerally with the cooldown message carrying
`round(error.retry_after)` (Python rounding: nearest integer, ties to even),
and every error that is a `CheckFailure` *but not a `CommandOnCooldown`* is
answered ephemerally with the fixed no-permission message. -/
theorem on_app_command_error_cooldown_check
    (sendFails : HandlerSend → Option String) (st : InteractionState)
    (hok : ∀ s, sendFails s = none) :
    (∀ q : ℚ,
        (on_app_command_error sendFails st (AppError.commandOnCooldown q)).sent
          = [HandlerSend.response
              ("명령어 쿨다운: " ++ toString (pyRound q) ++ "초 남음") true])
    ∧ (∀ error : AppError, error.isCheckFailure = true →
        error.isCommandOnCooldown = false →
        (on_app_command_error sendFails st error).sent
          = [HandlerSend.response
              "권한이 없거나 이 채널에서 사용할 수 없는 명령어입니다." true]) := by
  constructor
  · intro q
    simp [on_app_command_error, handlerBody, AppError.isCommandOnCooldown,
      AppError.retryAfter, runSends, cooldownMessage, hok]
  · intro error h1 h2
    cases error with
    | commandOnCooldown q => simp [AppError.isCommandOnCooldown] at h2
    | checkFailure =>
      simp [on_app_command_error, handlerBody, AppError.isCommandOnCooldown,
        AppError.isCheckFailure, runSends, noPermissionMessage, hok]
    | commandInvokeError o => simp [AppError.isCheckFailure] at h1
    | otherError => simp [AppError.isCheckFailure] at h1

/-- C5 (witness for the amended theorem): a never-failing send oracle and a
fresh interaction. -/
theorem on_app_command_error_cooldown_check_witness :
    (∀ s : HandlerSend, (fun _ => (none : Option String)) s = none)
    ∧ ((∀ q : ℚ,
          (on_app_command_error (fun _ => none) ⟨false⟩
              (AppError.commandOnCooldown q)).sent
            = [HandlerSend.response
                ("명령어 쿨다운: " ++ toString (pyRound q) ++ "초 남음") true])
      ∧ (∀ error : AppError, error.isCheckFailure = true →
          error.isCommandOnCooldown = false →
          (on_app_command_error (fun _ => none) ⟨false⟩ error).sent
            = [HandlerSend.response
                "권한이 없거나 이 채널에서 사용할 수 없는 명령어입니다." true])) :=
  ⟨fun _ => rfl,
    on_app_command_error_cooldown_check (fun _ => none) ⟨false⟩ (fun _ => rfl)⟩

/-- C6: for a `CommandInvokeError`, when the sends succeed the handler picks
the reply from the wrapped original — the Discord-API message for an
`HTTPException`, the timeout message for an `asyncio.TimeoutError`, the
generic execution-error message otherwise — and sends it ephemerally through
the initial response when `interaction.response.is_done()` is false, through a
followup when it is true. -/
theorem on_app_command_error_invoke
    (sendFails : HandlerSend → Option String) (st : InteractionState)
    (orig : OriginalError) (hok : ∀ s, sendFails s = none) :
    (on_app_command_error sendFails st (AppError.commandInvokeError orig)).sent
      = [(if st.responseDone then HandlerSend.followup
          else HandlerSend.response)
          (match orig with
           | OriginalError.httpException _ => "Discord API 오류가 발생했습니다."
           | OriginalError.timeoutError => "요청 시간이 초과되었습니다."
           | OriginalError.otherExc _ => "명령어 실행 중 오류가 발생했습니다.")
          true] := by
  obtain ⟨b⟩ := st
  cases orig <;> cases b <;>
    simp [on_app_command_error, handlerBody, AppError.isCommandOnCooldown,
      AppError.isCheckFailure, AppError.isCommandInvokeError,
      AppError.original, invokeErrorMessage, OriginalError.isHTTP,
      OriginalError.isTimeout, runSends, hok]

/-- C6 (witness): a timeout wrapped in a `CommandInvokeError` on an
interaction whose response is already done. -/
theorem on_app_command_error_invoke_witness :
    (∀ s : HandlerSend, (fun _ => (none : Option String)) s = none)
    ∧ (on_app_command_error (fun _ => none) ⟨true⟩
          (AppError.commandInvokeError OriginalError.timeoutError)).sent
        = [(if (true : Bool) then HandlerSend.followup
            else HandlerSend.response)
            (match OriginalError.timeoutError with
             | OriginalError.httpException _ => "Discord API 오류가 발생했습니다."
             | OriginalError.timeoutError => "요청 시간이 초과되었습니다."
             | OriginalError.otherExc _ => "명령어 실행 중 오류가 발생했습니다.")
            true] :=
  ⟨fun _ => rfl,
    on_app_command_error_invoke (fun _ => none) ⟨true⟩
      OriginalError.timeoutError (fun _ => rfl)⟩

/-- C10: an error that is none of `CommandOnCooldown`, `CheckFailure`,
`CommandInvokeError` falls through every branch: the handler sends nothing and
logs no handler failure; and whenever the body raises (a send fails), the
surrounding `try`/`except` yields a normal outcome that records the exception
in the log — the handler, a total function into `HandlerOutcome`, never
propagates it. -/
theorem on_app_command_error_fallthrough_catch
    (sendFails : HandlerSend → Option String) (st : InteractionState) :
    (∀ error : AppError, error.isCommandOnCooldown = false →
        error.isCheckFailure = false → error.isCommandInvokeError = false →
        on_app_command_error sendFails st error = ⟨[], none⟩)
    ∧ (∀ error : AppError, ∀ exn : String,
        (runSends sendFails (handlerBody st error)).2 = some exn →
        on_app_command_error sendFails st error
          = ⟨(runSends sendFails (handlerBody st error)).1,
             some ("Error handler failed: " ++ exn)⟩) := by
  constructor
  · intro error h1 h2 h3
    cases error with
    | commandOnCooldown q => simp [AppError.isCommandOnCooldown] at h1
    | checkFailure => simp [AppError.isCheckFailure] at h2
    | commandInvokeError o => simp [AppError.isCommandInvokeError] at h3
    | otherError =>
      simp [on_app_command_error, handlerBody, AppError.isCommandOnCooldown,
        AppError.isCheckFailure, AppError.isCommandInvokeError, runSends]
  · intro error exn h
    simp only [on_app_command_error]
    rw [h]
    rfl

/-- C10 (witness): an unmatched error sends nothing; and with an oracle that
fails every send, the send for a `CheckFailure` error raises and is caught and
logged. -/
theorem on_app_command_error_fallthrough_catch_witness :
    ((AppError.otherError.isCommandOnCooldown = false)
      ∧ AppError.otherError.isCheckFailure = false
      ∧ AppError.otherError.isCommandInvokeError = false)
    ∧ on_app_command_error (fun _ => some "boom") ⟨false⟩ AppError.otherError
        = ⟨[], none⟩
    ∧ (runSends (fun _ => some "boom")
          (handlerBody ⟨false⟩ AppError.checkFailure)).2 = some "boom"
    ∧ on_app_command_error (fun _ => some "boom") ⟨false⟩ AppError.checkFailure
        = ⟨(runSends (fun _ => some "boom")
              (handlerBody ⟨false⟩ AppError.checkFailure)).1,
           some ("Error handler failed: " ++ "boom")⟩ :=
  ⟨⟨rfl, rfl, rfl⟩,
    (on_app_command_error_fallthrough_catch (fun _ => some "boom") ⟨false⟩).1
      AppError.otherError rfl rfl rfl,
    rfl,
    (on_app_command_error_fallthrough_catch (fun _ => some "boom") ⟨false⟩).2
      AppError.checkFailure "boom" rfl⟩

/-! ## Claim theorems: credentials (C7) and presence rotation (C8) -/

/-- C7: at module load the token read from the (dotenv-augmented) environment
is checked: a missing or empty `DISCORD_TOKEN` yields the `ValueError` (so
`bot.start` is never reached), and any token that passes the check is exactly
the nonempty environment value. -/
theorem discord_token_guard (env : String → Option String) :
    (∀ t, discordTokenCheck env = Except.ok t →
        env "DISCORD_TOKEN" = some t ∧ t ≠ "")
    ∧ ((env "DISCORD_TOKEN" = none ∨ env "DISCORD_TOKEN" = some "") →
        discordTokenCheck env
          = Except.error "DISCORD_TOKEN 환경 변수가 누락되었습니다.") := by
  constructor
  · intro t ht
    cases h : env "DISCORD_TOKEN" with
    | none => simp [discordTokenCheck, h, pyFalsyStrOpt] at ht
    | some s =>
      by_cases hs : s = ""
      · subst hs
        simp [discordTokenCheck, h, pyFalsyStrOpt] at ht
      · simp [discordTokenCheck, h, pyFalsyStrOpt, hs] at ht
        subst ht
        exact ⟨rfl, hs⟩
  · intro hc
    have hf : pyFalsyStrOpt (env "DISCORD_TOKEN") = true := by
      rcases hc with hc | hc <;> simp [pyFalsyStrOpt, hc]
    simp [discordTokenCheck, hf]

/-- C7 (witness): an environment with an empty `DISCORD_TOKEN` is rejected
with the `ValueError` message. -/
theorem discord_token_guard_witness :
    (((fun _ => some "") : String → Option String) "DISCORD_TOKEN" = none
      ∨ ((fun _ => some "") : String → Option String) "DISCORD_TOKEN"
          = some "")
    ∧ discordTokenCheck (fun _ => some "")
        = Except.error "DISCORD_TOKEN 환경 변수가 누락되었습니다." :=
  ⟨Or.inr rfl, (discord_token_guard (fun _ => some "")).2 (Or.inr rfl)⟩

/-- C8: the k-th presence change of the rotation loop (counting from 0) sets
status online with the activity of index `k mod 3` in the fixed three-element
activities list, and the loop then sleeps 300 seconds before the next
change. -/
theorem rotate_activity_spec (k : Nat) :
    rotateIdx k = k % 3
    ∧ rotate_activity k
        = (⟨Status.online, activities.getD (k % 3) default⟩, 300)
    ∧ activities.length = 3 := by
  have h : ∀ m, rotateIdx m = m % 3 := by
    intro m
    induction m with
    | zero => rfl
    | succ n ih =>
      have hstep : rotateIdx (n + 1)
          = (rotateIdx n + 1) % activities.length := rfl
      have h3 : activities.length = 3 := rfl
      rw [hstep, ih, h3]
      omega
  refine ⟨h k, ?_, rfl⟩
  rw [rotate_activity, h k]

end Kermit
